import Mathlib

/-!
Shallow embedding of `src/attack.py` (adversarial-example generation script)
and proofs of the specified properties of its glue logic.

Numbers that the script manipulates exactly (means, stds, epsilons, clip
bounds, success ratios) are modelled as rationals; predictions are lists of
rational scores; images are functions `Fin 3 → Fin 224 → Fin 224 → ℚ`.
The classifier, the attack library and the TensorFlow session are external
collaborators: they are modelled as an oracle function supplied to the batch
loop, exactly as the script treats them (a single fused `sess.run`).
-/

namespace AttackPy

/-- ImageNet per-channel means used at `attack.py:33`. -/
def mean : Fin 3 → ℚ
  | 0 => 0.485
  | 1 => 0.456
  | 2 => 0.406

/-- ImageNet per-channel standard deviations used at `attack.py:33`. -/
def std : Fin 3 → ℚ
  | 0 => 0.229
  | 1 => 0.224
  | 2 => 0.225

/-- torchvision `Normalize(mean, std)` on one channel value: `(x - mean) / std`. -/
def normalizeChannel (c : Fin 3) (x : ℚ) : ℚ := (x - mean c) / std c

/-- `clip_min` from `attack.py:56`: the minimum over channels of the
normalized all-zeros (black) image. -/
def clip_min : ℚ :=
  min (normalizeChannel 0 0) (min (normalizeChannel 1 0) (normalizeChannel 2 0))

/-- `clip_max` from `attack.py:57`: the maximum over channels of the
normalized all-ones (white) image. -/
def clip_max : ℚ :=
  max (normalizeChannel 0 1) (max (normalizeChannel 1 1) (normalizeChannel 2 1))

/-- `eps = args.eps / 255.` from `attack.py:59` (Python true division). -/
def normEps (e : Int) : ℚ := (e : ℚ) / 255

/-- The norm order actually handed to the attack: either `np.inf` or an integer. -/
inductive OrdVal where
  | inf : OrdVal
  | val : Int → OrdVal
  deriving DecidableEq, Repr

/-- `args.ord = np.inf if args.ord < 0 else args.ord` from `attack.py:62`. -/
def resolveOrd (l : Int) : OrdVal := if l < 0 then OrdVal.inf else OrdVal.val l

/-- How Python formats the resolved order inside `'_L{}_eps{}'.format(...)`:
`np.inf` prints as `inf`, an integer prints as its decimal form. -/
def ordName : OrdVal → String
  | OrdVal.inf => "inf"
  | OrdVal.val n => toString n

/-- The eight legal values of `--attack` (short `-a`) (`attack.py:141`). -/
def attackChoices : List String :=
  ["lbfgs", "fgsm", "iter", "m-iter", "pgd", "deepfool", "jsma", "cw"]

/-- The legal values of `--ord` (short `-l`) (`attack.py:145`). -/
def ordChoices : List Int := [-1, 1, 2]

/-- Runtime value of `args.attack`: argparse stores either the supplied string
or, when the flag is omitted, the default, which is the integer `20`
(`attack.py:142`). -/
inductive AttackVal where
  | str : String → AttackVal
  | int : Int → AttackVal
  deriving DecidableEq, Repr

/-- argparse handling of `--attack` (short `-a`) (`attack.py:141-143`): an explicitly
supplied value must be one of the eight choices, otherwise the parser exits
with a usage error (modelled as `none`); when the flag is omitted the
(unchecked, non-string) default `20` is stored. -/
def parseAttack (given : Option String) : Option AttackVal :=
  match given with
  | some s => if s ∈ attackChoices then some (AttackVal.str s) else none
  | none => some (AttackVal.int 20)

/-- argparse handling of `--ord` (short `-l`) (`attack.py:145-146`): an explicit value
must be in `{-1, 1, 2}`; omitting the flag yields the default `-1`. -/
def parseOrd (given : Option Int) : Option Int :=
  match given with
  | some v => if v ∈ ordChoices then some v else none
  | none => some (-1)

/-- A value in an attack's keyword-parameter mapping. -/
inductive ParamVal where
  | num : ℚ → ParamVal
  | intP : Int → ParamVal
  | ordP : OrdVal → ParamVal
  | boolP : Bool → ParamVal
  | placeholderP : ParamVal
  deriving DecidableEq, Repr

/-- `eps_iter = 20` (`attack.py:60`). -/
def eps_iter : Int := 20

/-- `nb_iter = 10` (`attack.py:61`). -/
def nb_iter : Int := 10

/-- `grad_params = {'eps': eps, 'ord': args.ord}` (`attack.py:63`). -/
def grad_params (e : Int) (o : OrdVal) : List (String × ParamVal) :=
  [("eps", ParamVal.num (normEps e)), ("ord", ParamVal.ordP o)]

/-- `common_params = {'clip_min': clip_min, 'clip_max': clip_max}` (`attack.py:64`). -/
def common_params : List (String × ParamVal) :=
  [("clip_min", ParamVal.num clip_min), ("clip_max", ParamVal.num clip_max)]

/-- `iter_params = {'eps_iter': eps_iter / 255., 'nb_iter': nb_iter}` (`attack.py:65`). -/
def iter_params : List (String × ParamVal) :=
  [("eps_iter", ParamVal.num ((eps_iter : ℚ) / 255)), ("nb_iter", ParamVal.intP nb_iter)]

/-- The one-hot lbfgs target built at `attack.py:95-96`: a `(1, 1000)` array
of zeros with a single `1` in column `r`, where `r = np.random.randint(1000)`
is drawn from the process RNG, uniformly over `[0, 1000)`, at
attack-construction time. -/
def mkTarget (r : Fin 1000) : Fin 1 → Fin 1000 → ℚ :=
  fun _ j => if j = r then 1 else 0

/-- `'_L{}_eps{}'.format(args.ord, args.eps)` (`attack.py:69`). -/
def gradSuffix (e : Int) (o : OrdVal) : String :=
  "_L" ++ ordName o ++ "_eps" ++ toString e

/-- `'_L{}_eps{}_epsi{}_i{}'.format(args.ord, args.eps, eps_iter, nb_iter)`
(`attack.py:73`, `77`, `81`). -/
def iterSuffix (e : Int) (o : OrdVal) : String :=
  "_L" ++ ordName o ++ "_eps" ++ toString e ++ "_epsi" ++ toString eps_iter
    ++ "_i" ++ toString nb_iter

/-- Result of the attack-selector chain (`attack.py:67-98`): the derived name
suffix, the keyword-parameter mapping (a `{**a, **b}` merge is concatenation
here, all key sets being disjoint), and the value of the local `target` that
only the `lbfgs` branch assigns (the fed placeholder `y` is bound exactly when
`target` is). -/
structure AttackSetup where
  suffix : String
  params : List (String × ParamVal)
  target : Option (Fin 1 → Fin 1000 → ℚ)

/-- The if/elif chain at `attack.py:67-98`. Returns `none` when no branch
matches (then the locals `attack_op` and `attack_params` stay unbound).
`r` is the `np.random.randint(1000)` draw, consumed only by `lbfgs`. -/
def selectAttack (attack : AttackVal) (e : Int) (o : OrdVal) (r : Fin 1000) :
    Option AttackSetup :=
  if attack = AttackVal.str "fgsm" then
    some ⟨gradSuffix e o, common_params ++ grad_params e o, none⟩
  else if attack = AttackVal.str "iter" then
    some ⟨iterSuffix e o, common_params ++ grad_params e o ++ iter_params, none⟩
  else if attack = AttackVal.str "m-iter" then
    some ⟨iterSuffix e o, common_params ++ grad_params e o ++ iter_params, none⟩
  else if attack = AttackVal.str "pgd" then
    some ⟨iterSuffix e o, common_params ++ grad_params e o ++ iter_params, none⟩
  else if attack = AttackVal.str "jsma" then
    some ⟨"", [("theta", ParamVal.num (normEps e)),
               ("symbolic_impl", ParamVal.boolP false)] ++ common_params, none⟩
  else if attack = AttackVal.str "deepfool" then
    some ⟨"", common_params, none⟩
  else if attack = AttackVal.str "cw" then
    some ⟨"", common_params, none⟩
  else if attack = AttackVal.str "lbfgs" then
    some ⟨"", ("y_target", ParamVal.placeholderP) :: common_params, some (mkTarget r)⟩
  else
    none

/-- Errors the script can raise in the modelled region. -/
inductive RunError where
  | typeError : RunError
  | unboundLocal : String → RunError
  deriving DecidableEq, Repr

/-- `attack_name = args.attack + attack_name` (`attack.py:100`): a string
value concatenates with the suffix; the stray integer default makes this
`int + str`, a `TypeError`. -/
def fullAttackName (attack : AttackVal) (suffix : String) : Except RunError String :=
  match attack with
  | AttackVal.str s => Except.ok (s ++ suffix)
  | AttackVal.int _ => Except.error RunError.typeError

/-- A `3 × 224 × 224` tensor of exact image values. -/
def Image : Type := Fin 3 → Fin 224 → Fin 224 → ℚ

/-- One dataset entry yielded by the loader: `(path, transformed image)`. -/
structure Sample where
  path : String
  img : Image

/-- Output of the fused `sess.run` (`attack.py:115`) for one sample: original
logits `z`, adversarial image `adv_x`, adversarial logits `adv_z`. The
classifier and attack internals are external collaborators; a deterministic
model and attack are an arbitrary function of the sample. -/
structure EvalOut where
  z : List ℚ
  adv_x : Image
  adv_z : List ℚ

/-- Helper for `argmax`: fold tracking the best index and value, updating only
on a strictly larger value (so ties keep the first index, as numpy does). -/
def argmaxAux : List ℚ → Nat → Nat → ℚ → Nat
  | [], _, bi, _ => bi
  | v :: vs, i, bi, bv =>
    if bv < v then argmaxAux vs (i + 1) i v else argmaxAux vs (i + 1) bi bv

/-- `np.argmax` on one prediction row: index of the first occurrence of the
maximal element (`0` on the empty row). -/
def argmax : List ℚ → Nat
  | [] => 0
  | v :: vs => argmaxAux vs 1 0 v

/-- One `np.savez_compressed` archive written at `attack.py:133`: its path and
its keyword entries (here always the single key `img`). -/
structure SavedFile where
  path : String
  entries : List (String × Image)

/-- `attack.py:131-132`: `'{}_{}_src{}_dst{}.npz'.format(p, attack_name, s, d)`
joined under `out_folder`. -/
def savePath (out_folder aname p : String) (s d : Nat) : String :=
  out_folder ++ "/"
    ++ (p ++ "_" ++ aname ++ "_src" ++ toString s ++ "_dst" ++ toString d ++ ".npz")

/-- Per-sample evaluation record from `attack.py:115-117`:
path, adversarial image, `src = argmax z`, `dst = argmax adv_z`. -/
structure SampleResult where
  path : String
  adv_x : Image
  src : Nat
  dst : Nat

/-- The per-batch results, one per sample in batch order. -/
def batchResults (evalF : Sample → EvalOut) (batch : List Sample) :
    List SampleResult :=
  batch.map fun s =>
    let o := evalF s
    ⟨s.path, o.adv_x, argmax o.z, argmax o.adv_z⟩

/-- The boolean mask `success = src != dst` applied to the batch
(`attack.py:118-122`). -/
def successResults (evalF : Sample → EvalOut) (batch : List Sample) :
    List SampleResult :=
  (batchResults evalF batch).filter fun sr => sr.src ≠ sr.dst

/-- Mutable state of the loop at `attack.py:108-133`: the running counters,
the success rate displayed after each batch (`attack.py:127`), and the files
written so far. -/
structure LoopState where
  n_success : Nat
  n_processed : Nat
  rates : List ℚ
  saved : List SavedFile

/-- `n_success = 0; n_processed = 0` (`attack.py:108-109`). -/
def initState : LoopState := ⟨0, 0, [], []⟩

/-- One iteration of the loop (`attack.py:111-133`). The `feed_dict` literal
at `attack.py:115` evaluates the local `y` before the session runs; `y` is
unbound unless the `lbfgs` branch ran (`tdef`), and that iteration then raises
`UnboundLocalError` before computing or saving anything. -/
def processBatch (evalF : Sample → EvalOut) (out_folder aname : String)
    (tdef : Bool) (st : LoopState) (batch : List Sample) :
    Except RunError LoopState :=
  if tdef then
    let succ := successResults evalF batch
    let ns := st.n_success + succ.length
    let np := st.n_processed + batch.length
    Except.ok
      { n_success := ns
        n_processed := np
        rates := st.rates ++ [(ns : ℚ) / (np : ℚ)]
        saved := st.saved ++ succ.map fun sr =>
          ⟨savePath out_folder aname sr.path sr.src sr.dst, [("img", sr.adv_x)]⟩ }
  else
    Except.error (RunError.unboundLocal "y")

/-- The whole batch loop, stopping at the first raised error (the script has
no handler: the error aborts the run). -/
def runBatches (evalF : Sample → EvalOut) (out_folder aname : String)
    (tdef : Bool) : List (List Sample) → LoopState → LoopState × Option RunError
  | [], st => (st, none)
  | b :: bs, st =>
    match processBatch evalF out_folder aname tdef st b with
    | Except.error e => (st, some e)
    | Except.ok st2 => runBatches evalF out_folder aname tdef bs st2

/-- Split a list into consecutive chunks of size `bs` (the final chunk may be
shorter); a non-positive `bs` is treated as `1` (`DataLoader` rejects it). -/
def chunks (bs : Nat) (l : List α) : List (List α) :=
  let b := max bs 1
  (List.range ((l.length + b - 1) / b)).map fun i => (l.drop (i * b)).take b

/-- The batch stream of `DataLoader(dataset, shuffle=False, batch_size=bs,
pin_memory=True, num_workers=0)` (`attack.py:42`): with `shuffle` false the
dataset order is kept; with `shuffle` true a sampler permutation drawn from
the RNG would be applied first. -/
def dataLoaderBatches (shuffle : Bool) (perm : List Sample → List Sample)
    (ds : List Sample) (bs : Nat) : List (List Sample) :=
  chunks bs (if shuffle then perm ds else ds)

/-- The parsed configuration consumed by `main` (`attack.py:136-151`). -/
structure Args where
  out_folder : String
  batch_size : Nat
  attack : AttackVal
  eps : Int
  ordA : Int

/-- `main` (`attack.py:32-133`) after model/session setup: attack selection,
name computation and the batch loop. `evalF` is the deterministic external
model + attack oracle, `perm` the (unused, since `shuffle=False`) sampler
permutation, `r` the `np.random.randint` draw. Returns the final loop state
and the error, if any, that terminated the run. -/
def mainRun (args : Args) (ds : List Sample) (evalF : Sample → EvalOut)
    (perm : List Sample → List Sample) (r : Fin 1000) :
    LoopState × Option RunError :=
  match selectAttack args.attack args.eps (resolveOrd args.ordA) r with
  | none =>
    (initState, some (match args.attack with
      | AttackVal.int _ => RunError.typeError
      | AttackVal.str _ => RunError.unboundLocal "attack_op"))
  | some setup =>
    match fullAttackName args.attack setup.suffix with
    | Except.error e => (initState, some e)
    | Except.ok aname =>
      runBatches evalF args.out_folder aname setup.target.isSome
        (dataLoaderBatches false perm ds args.batch_size) initState

/-- The parameter mapping of a selector result (`[]` when no branch matched,
i.e. when the local `attack_params` stays unbound). -/
def paramsOf : Option AttackSetup → List (String × ParamVal)
  | some su => su.params
  | none => []

/-- The keys of a parameter mapping, in Python dict insertion order. -/
def keysOf (ps : List (String × ParamVal)) : List String := ps.map Prod.fst

/-- The `target` local recorded by a selector result. -/
def targetOf : Option AttackSetup → Option (Fin 1 → Fin 1000 → ℚ)
  | some su => su.target
  | none => none

/-- The number of attack successes among a list of samples: those whose
original and adversarial predictions have different argmaxes. -/
def countSuccess (evalF : Sample → EvalOut) (samples : List Sample) : Nat :=
  (samples.filter fun s => argmax (evalF s).z ≠ argmax (evalF s).adv_z).length

/-- The success rate the script displays after its `(k+1)`-st batch:
cumulative successes over cumulative samples, as an exact ratio. -/
def prefixRate (evalF : Sample → EvalOut) (batches : List (List Sample))
    (k : Nat) : ℚ :=
  ((countSuccess evalF ((batches.take (k + 1)).flatten) : Nat) : ℚ) /
    ((((batches.take (k + 1)).flatten).length : Nat) : ℚ)

/-- The successful (`lbfgs`-style, `y` bound) branch of `processBatch` as a
total step function, for reasoning about the loop as a fold. -/
def stepOk (evalF : Sample → EvalOut) (o a : String) (st : LoopState)
    (batch : List Sample) : LoopState :=
  { n_success := st.n_success + (successResults evalF batch).length
    n_processed := st.n_processed + batch.length
    rates := st.rates ++
      [((st.n_success + (successResults evalF batch).length : Nat) : ℚ) /
        ((st.n_processed + batch.length : Nat) : ℚ)]
    saved := st.saved ++ (successResults evalF batch).map fun sr =>
      ⟨savePath o a sr.path sr.src sr.dst, [("img", sr.adv_x)]⟩ }

/-- A concrete all-zeros image, for evaluating the model on explicit runs. -/
def sampleImg : Image := fun _ _ _ => 0

/-- A concrete dataset entry. -/
def sample1 : Sample := ⟨"img1.png", sampleImg⟩

/-- A concrete deterministic oracle: the original prediction prefers class 0,
the adversarial prediction prefers class 1 (a successful attack). -/
def evalConst : Sample → EvalOut := fun s => ⟨[1, 0], s.img, [0, 1]⟩

/-- A concrete parsed configuration: `fgsm`, `eps = 20`, default norm order. -/
def argsFgsm : Args := ⟨"out", 1, AttackVal.str "fgsm", 20, -1⟩

/-- The loop state after running one single-sample batch with `y` bound. -/
def st1 : LoopState :=
  (runBatches evalConst "out" "fgsm_Linf_eps20" true [[sample1]] initState).1

end AttackPy

namespace AttackPy

theorem clip_min_eval : clip_min = -(485 / 229 : ℚ) := by
  have h0 : normalizeChannel 0 0 = -(485 / 229 : ℚ) := by
    simp [normalizeChannel, mean, std]; norm_num
  have h1 : normalizeChannel 1 0 = -(57 / 28 : ℚ) := by
    simp [normalizeChannel, mean, std]; norm_num
  have h2 : normalizeChannel 2 0 = -(406 / 225 : ℚ) := by
    simp [normalizeChannel, mean, std]; norm_num
  rw [clip_min, h0, h1, h2]
  norm_num

theorem processBatch_true (evalF : Sample → EvalOut) (o a : String)
    (st : LoopState) (b : List Sample) :
    processBatch evalF o a true st b = Except.ok (stepOk evalF o a st b) := rfl

theorem runBatches_true (evalF : Sample → EvalOut) (o a : String) :
    ∀ (batches : List (List Sample)) (st0 : LoopState),
      runBatches evalF o a true batches st0 =
        (batches.foldl (stepOk evalF o a) st0, none) := by
  intro batches
  induction batches with
  | nil => intro st0; rfl
  | cons b bs ih =>
    intro st0
    simp only [runBatches, processBatch_true, List.foldl_cons]
    exact ih _

theorem filter_of_map {α β : Type} (f : α → β) (p : β → Bool) (l : List α) :
    (l.map f).filter p = (l.filter fun x => p (f x)).map f := by
  induction l with
  | nil => rfl
  | cons x xs ih =>
    by_cases h : p (f x)
    · simp [List.filter_cons, h, ih]
    · simp [List.filter_cons, h, ih]

theorem successResults_spec (evalF : Sample → EvalOut) (batch : List Sample) :
    successResults evalF batch =
      batchResults evalF
        (batch.filter fun s => argmax (evalF s).z ≠ argmax (evalF s).adv_z) := by
  unfold successResults batchResults
  exact filter_of_map _ _ _

theorem successResults_length (evalF : Sample → EvalOut) (batch : List Sample) :
    (successResults evalF batch).length = countSuccess evalF batch := by
  rw [successResults_spec]
  unfold batchResults countSuccess
  exact List.length_map _ _

theorem countSuccess_append (evalF : Sample → EvalOut) (l1 l2 : List Sample) :
    countSuccess evalF (l1 ++ l2) = countSuccess evalF l1 + countSuccess evalF l2 := by
  unfold countSuccess
  rw [List.filter_append, List.length_append]

theorem foldl_counters (evalF : Sample → EvalOut) (o a : String) :
    ∀ (batches : List (List Sample)) (st0 : LoopState),
      (batches.foldl (stepOk evalF o a) st0).n_success =
          st0.n_success + countSuccess evalF batches.flatten ∧
      (batches.foldl (stepOk evalF o a) st0).n_processed =
          st0.n_processed + batches.flatten.length := by
  intro batches
  induction batches with
  | nil =>
    intro st0
    simp [countSuccess]
  | cons b bs ih =>
    intro st0
    have h := ih (stepOk evalF o a st0 b)
    simp only [List.foldl_cons, List.flatten_cons] at h ⊢
    refine ⟨?_, ?_⟩
    · rw [h.1, stepOk, successResults_length, countSuccess_append]
      ring
    · rw [h.2, stepOk, List.length_append]
      ring

theorem foldl_rates (evalF : Sample → EvalOut) (o a : String) :
    ∀ (batches : List (List Sample)) (st0 : LoopState),
      (batches.foldl (stepOk evalF o a) st0).rates =
        st0.rates ++ (List.range batches.length).map (fun k =>
          (((st0.n_success + countSuccess evalF ((batches.take (k + 1)).flatten) : Nat)) : ℚ) /
            (((st0.n_processed + ((batches.take (k + 1)).flatten).length : Nat)) : ℚ)) := by
  intro batches
  induction batches with
  | nil =>
    intro st0
    simp
  | cons b bs ih =>
    intro st0
    have h := ih (stepOk evalF o a st0 b)
    simp only [List.foldl_cons] at h ⊢
    rw [h]
    have hrate : (stepOk evalF o a st0 b).rates =
        st0.rates ++ [(((st0.n_success + countSuccess evalF b : Nat)) : ℚ) /
          (((st0.n_processed + b.length : Nat)) : ℚ)] := by
      rw [stepOk, successResults_length]
    rw [hrate, List.length_cons, List.range_succ_eq_map, List.map_cons, List.map_map,
      List.append_assoc, List.singleton_append]
    congr 1
    have hhead : (((st0.n_success + countSuccess evalF (((b :: bs).take (0 + 1)).flatten) : Nat)) : ℚ) /
        (((st0.n_processed + (((b :: bs).take (0 + 1)).flatten).length : Nat)) : ℚ) =
        (((st0.n_success + countSuccess evalF b : Nat)) : ℚ) /
          (((st0.n_processed + b.length : Nat)) : ℚ) := by
      simp
    rw [hhead]
    congr 1
    refine congrArg (fun f => List.map f (List.range bs.length)) ?_
    funext k
    simp only [Function.comp_apply]
    have h1 : (stepOk evalF o a st0 b).n_success = st0.n_success + countSuccess evalF b := by
      rw [stepOk, successResults_length]
    have h2 : (stepOk evalF o a st0 b).n_processed = st0.n_processed + b.length := by
      rw [stepOk]
    rw [h1, h2, List.take_succ_cons, List.flatten_cons, countSuccess_append,
      List.length_append]
    congr 2 <;> omega

theorem chunks_ne_nil {α : Type} (bs : Nat) (l : List α) (h : l ≠ []) :
    chunks bs l ≠ [] := by
  unfold chunks
  intro hc
  simp only [List.map_eq_nil_iff, List.range_eq_nil] at hc
  have hb : 1 ≤ max bs 1 := le_max_right _ _
  have hl : 1 ≤ l.length := List.length_pos.mpr h
  have hd : 1 ≤ (l.length + max bs 1 - 1) / max bs 1 :=
    (Nat.one_le_div_iff (by omega)).mpr (by omega)
  omega

theorem runBatches_no_target (evalF : Sample → EvalOut) (o a : String)
    (batches : List (List Sample)) (hb : batches ≠ []) (st : LoopState) :
    runBatches evalF o a false batches st = (st, some (RunError.unboundLocal "y")) := by
  cases batches with
  | nil => exact absurd rfl hb
  | cons b bs => simp [runBatches, processBatch]

theorem clip_max_eval : clip_max = (66 / 25 : ℚ) := by
  have h0 : normalizeChannel 0 1 = (515 / 229 : ℚ) := by
    simp [normalizeChannel, mean, std]; norm_num
  have h1 : normalizeChannel 1 1 = (17 / 7 : ℚ) := by
    simp [normalizeChannel, mean, std]; norm_num
  have h2 : normalizeChannel 2 1 = (66 / 25 : ℚ) := by
    simp [normalizeChannel, mean, std]; norm_num
  rw [clip_max, h0, h1, h2]
  norm_num

theorem dataLoaderBatches_false (perm : List Sample → List Sample)
    (ds : List Sample) (bs : Nat) :
    dataLoaderBatches false perm ds bs = chunks bs ds := rfl

/-- C5: the clip bounds used by every attack are obtained by applying the
fixed `Normalize(mean, std)` transform to the all-zeros (black) and all-ones
(white) tensors, taking the minimum over channels for `clip_min` and the
maximum for `clip_max`; they satisfy `clip_min < clip_max`, and every one of
the eight attacks receives exactly these two values. -/
theorem C5_clip_bounds (e l : Int) (r : Fin 1000) :
    clip_min = min (normalizeChannel 0 0) (min (normalizeChannel 1 0) (normalizeChannel 2 0)) ∧
    clip_max = max (normalizeChannel 0 1) (max (normalizeChannel 1 1) (normalizeChannel 2 1)) ∧
    clip_min < clip_max ∧
    ∀ s ∈ attackChoices,
      ("clip_min", ParamVal.num clip_min) ∈
          paramsOf (selectAttack (AttackVal.str s) e (resolveOrd l) r) ∧
      ("clip_max", ParamVal.num clip_max) ∈
          paramsOf (selectAttack (AttackVal.str s) e (resolveOrd l) r) := by
  refine ⟨rfl, rfl, ?_, ?_⟩
  · rw [clip_min_eval, clip_max_eval]; norm_num
  · intro s hs
    simp only [attackChoices, List.mem_cons, List.not_mem_nil, or_false] at hs
    rcases hs with rfl | rfl | rfl | rfl | rfl | rfl | rfl | rfl <;>
      simp [selectAttack, paramsOf, common_params, grad_params, iter_params]

/-- Witness for C5 at eps 20, ord -1, RNG draw 0: fgsm receives the bounds. -/
theorem C5_clip_bounds_witness :
    ("clip_min", ParamVal.num clip_min) ∈
        paramsOf (selectAttack (AttackVal.str "fgsm") 20 (resolveOrd (-1)) 0) ∧
    ("clip_max", ParamVal.num clip_max) ∈
        paramsOf (selectAttack (AttackVal.str "fgsm") 20 (resolveOrd (-1)) 0) :=
  (C5_clip_bounds 20 (-1) 0).2.2.2 "fgsm" (by simp [attackChoices])

/-- C6: for every integer epsilon input in [0, 255], the normalized epsilon
equals eps/255 exactly, lies in the closed interval [0, 1], and is the value
handed to the attack as its `eps` parameter. -/
theorem C6_eps_normalized (e : Int) (h0 : 0 ≤ e) (h1 : e ≤ 255) :
    normEps e = (e : ℚ) / 255 ∧ 0 ≤ normEps e ∧ normEps e ≤ 1 ∧
    ∀ (l : Int) (r : Fin 1000),
      ("eps", ParamVal.num (normEps e)) ∈
        paramsOf (selectAttack (AttackVal.str "fgsm") e (resolveOrd l) r) := by
  refine ⟨rfl, ?_, ?_, ?_⟩
  · apply div_nonneg _ (by norm_num)
    exact_mod_cast h0
  · rw [normEps, div_le_one (by norm_num)]
    exact_mod_cast h1
  · intro l r
    simp [selectAttack, paramsOf, common_params, grad_params]

/-- Witness for C6 at the CLI default eps = 20. -/
theorem C6_eps_normalized_witness :
    normEps 20 = (20 : ℚ) / 255 ∧ 0 ≤ normEps 20 ∧ normEps 20 ≤ 1 :=
  ⟨(C6_eps_normalized 20 (by norm_num) (by norm_num)).1,
   (C6_eps_normalized 20 (by norm_num) (by norm_num)).2.1,
   (C6_eps_normalized 20 (by norm_num) (by norm_num)).2.2.1⟩

/-- C7: the norm order defaults to infinity — an omitted `--ord` parses to
-1 and any negative value resolves to `np.inf` — while explicit 1 or 2 pass
through unchanged into the `ord` parameter of the gradient attacks. -/
theorem C7_ord_default :
    (∀ l, parseOrd none = some l → resolveOrd l = OrdVal.inf) ∧
    resolveOrd (-1) = OrdVal.inf ∧
    resolveOrd 1 = OrdVal.val 1 ∧
    resolveOrd 2 = OrdVal.val 2 ∧
    ∀ s ∈ (["fgsm", "iter", "m-iter", "pgd"] : List String), ∀ (e l : Int) (r : Fin 1000),
      ("ord", ParamVal.ordP (resolveOrd l)) ∈
        paramsOf (selectAttack (AttackVal.str s) e (resolveOrd l) r) := by
  refine ⟨?_, by decide, by decide, by decide, ?_⟩
  · intro l hl
    simp only [parseOrd, Option.some.injEq] at hl
    rw [← hl]
    decide
  · intro s hs e l r
    simp only [List.mem_cons, List.not_mem_nil, or_false] at hs
    rcases hs with rfl | rfl | rfl | rfl <;>
      simp [selectAttack, paramsOf, common_params, grad_params, iter_params]

/-- Witness for C7: with the default -1, fgsm receives the infinity norm. -/
theorem C7_ord_default_witness :
    ("ord", ParamVal.ordP (resolveOrd (-1))) ∈
      paramsOf (selectAttack (AttackVal.str "fgsm") 20 (resolveOrd (-1)) 0) :=
  C7_ord_default.2.2.2.2 "fgsm" (by simp) 20 (-1) 0

/-- C4: each of the eight attack names yields a non-empty parameter mapping
with exactly the keys of the spec table (listed in dict insertion order);
jsma's `symbolic_impl` is false; any other explicitly supplied attack name is
rejected by the argument parser, before any construction happens. -/
theorem C4_param_table (e l : Int) (r : Fin 1000) :
    (∀ s ∈ attackChoices,
        (selectAttack (AttackVal.str s) e (resolveOrd l) r).isSome = true ∧
        paramsOf (selectAttack (AttackVal.str s) e (resolveOrd l) r) ≠ []) ∧
    keysOf (paramsOf (selectAttack (AttackVal.str "fgsm") e (resolveOrd l) r)) =
      ["clip_min", "clip_max", "eps", "ord"] ∧
    (∀ s ∈ (["iter", "m-iter", "pgd"] : List String),
      keysOf (paramsOf (selectAttack (AttackVal.str s) e (resolveOrd l) r)) =
        ["clip_min", "clip_max", "eps", "ord", "eps_iter", "nb_iter"]) ∧
    keysOf (paramsOf (selectAttack (AttackVal.str "jsma") e (resolveOrd l) r)) =
      ["theta", "symbolic_impl", "clip_min", "clip_max"] ∧
    ("symbolic_impl", ParamVal.boolP false) ∈
      paramsOf (selectAttack (AttackVal.str "jsma") e (resolveOrd l) r) ∧
    keysOf (paramsOf (selectAttack (AttackVal.str "deepfool") e (resolveOrd l) r)) =
      ["clip_min", "clip_max"] ∧
    keysOf (paramsOf (selectAttack (AttackVal.str "cw") e (resolveOrd l) r)) =
      ["clip_min", "clip_max"] ∧
    keysOf (paramsOf (selectAttack (AttackVal.str "lbfgs") e (resolveOrd l) r)) =
      ["y_target", "clip_min", "clip_max"] ∧
    (∀ s, s ∉ attackChoices → parseAttack (some s) = none) ∧
    (∀ s ∈ attackChoices, parseAttack (some s) = some (AttackVal.str s)) := by
  refine ⟨?_, rfl, ?_, rfl, ?_, rfl, rfl, rfl, ?_, ?_⟩
  · intro s hs
    simp only [attackChoices, List.mem_cons, List.not_mem_nil, or_false] at hs
    rcases hs with rfl | rfl | rfl | rfl | rfl | rfl | rfl | rfl <;>
      exact ⟨rfl, by simp [selectAttack, paramsOf, common_params, grad_params, iter_params]⟩
  · intro s hs
    simp only [List.mem_cons, List.not_mem_nil, or_false] at hs
    rcases hs with rfl | rfl | rfl <;> rfl
  · simp [selectAttack, paramsOf, common_params, grad_params]
  · intro s hs
    show (if s ∈ attackChoices then some (AttackVal.str s) else none) = none
    rw [if_neg hs]
  · intro s hs
    show (if s ∈ attackChoices then some (AttackVal.str s) else none) = some (AttackVal.str s)
    rw [if_pos hs]

/-- Witness for C4 at eps 20, ord -1, RNG draw 0: the fgsm key set. -/
theorem C4_param_table_witness :
    keysOf (paramsOf (selectAttack (AttackVal.str "fgsm") 20 (resolveOrd (-1)) 0)) =
      ["clip_min", "clip_max", "eps", "ord"] :=
  (C4_param_table 20 (-1) 0).2.1

/-- C9: the `--attack` default is the integer 20, which never equals any of
the eight enumerated strings; when the flag is omitted no selector branch
matches, no attack operator is constructed, and the run fails (with the
TypeError raised by the `int + str` name concatenation) before attacking or
saving anything. -/
theorem C9_attack_default_unusable :
    parseAttack none = some (AttackVal.int 20) ∧
    (∀ s ∈ attackChoices, AttackVal.int 20 ≠ AttackVal.str s) ∧
    (∀ (e l : Int) (r : Fin 1000),
      selectAttack (AttackVal.int 20) e (resolveOrd l) r = none) ∧
    (∀ (out : String) (b : Nat) (e l : Int) (ds : List Sample)
        (evalF : Sample → EvalOut) (perm : List Sample → List Sample) (r : Fin 1000),
      mainRun ⟨out, b, AttackVal.int 20, e, l⟩ ds evalF perm r =
        (initState, some RunError.typeError)) := by
  refine ⟨rfl, ?_, ?_, ?_⟩
  · intro s _ h
    exact AttackVal.noConfusion h
  · intro e l r
    rfl
  · intro out b e l ds evalF perm r
    rfl

/-- Witness for C9: a concrete run with the stray default fails with the
TypeError, having processed and saved nothing. -/
theorem C9_attack_default_unusable_witness :
    mainRun ⟨"out", 1, AttackVal.int 20, 20, -1⟩ [sample1] evalConst id 0 =
      (initState, some RunError.typeError) :=
  C9_attack_default_unusable.2.2.2 "out" 1 20 (-1) [sample1] evalConst id 0

/-- C10: the lbfgs branch builds, at attack-construction time, a `(1, 1000)`
one-hot target from the process-RNG draw `r ∈ [0, 1000)`: entry `r` is 1 and
all others are 0; the target depends only on `r` (not on epsilon, the norm
order, or any image), different draws give different targets — so otherwise
identical runs can pick different target classes — and no other attack binds
a target at all. -/
theorem C10_lbfgs_target (r r2 : Fin 1000) (e e2 l l2 : Int) :
    targetOf (selectAttack (AttackVal.str "lbfgs") e (resolveOrd l) r) =
      some (mkTarget r) ∧
    (∀ i : Fin 1, mkTarget r i r = 1) ∧
    (∀ (i : Fin 1) (j : Fin 1000), j ≠ r → mkTarget r i j = 0) ∧
    targetOf (selectAttack (AttackVal.str "lbfgs") e (resolveOrd l) r) =
      targetOf (selectAttack (AttackVal.str "lbfgs") e2 (resolveOrd l2) r) ∧
    (r ≠ r2 → mkTarget r ≠ mkTarget r2) ∧
    (∀ s ∈ attackChoices, s ≠ "lbfgs" →
      targetOf (selectAttack (AttackVal.str s) e (resolveOrd l) r) = none) := by
  refine ⟨rfl, ?_, ?_, rfl, ?_, ?_⟩
  · intro i
    simp [mkTarget]
  · intro i j hj
    simp [mkTarget, hj]
  · intro hne heq
    have h := congrFun (congrFun heq 0) r
    simp only [mkTarget, if_pos rfl] at h
    rw [if_neg hne] at h
    exact one_ne_zero h
  · intro s hs hne
    simp only [attackChoices, List.mem_cons, List.not_mem_nil, or_false] at hs
    rcases hs with rfl | rfl | rfl | rfl | rfl | rfl | rfl | rfl
    · exact absurd rfl hne
    all_goals rfl

/-- Witness for C10: the draws 0 and 1 give different one-hot targets. -/
theorem C10_lbfgs_target_witness : mkTarget 0 ≠ mkTarget 1 :=
  (C10_lbfgs_target 0 1 20 20 (-1) (-1)).2.2.2.2.1 (by decide)

theorem mainRun_unbound (args : Args) (su : AttackSetup) (aname : String)
    (ds : List Sample) (evalF : Sample → EvalOut) (perm : List Sample → List Sample)
    (r : Fin 1000)
    (hsel : selectAttack args.attack args.eps (resolveOrd args.ordA) r = some su)
    (htar : su.target = none)
    (hname : fullAttackName args.attack su.suffix = Except.ok aname)
    (hds : ds ≠ []) :
    mainRun args ds evalF perm r = (initState, some (RunError.unboundLocal "y")) := by
  have hb : dataLoaderBatches false perm ds args.batch_size ≠ [] := by
    rw [dataLoaderBatches_false]
    exact chunks_ne_nil _ _ hds
  unfold mainRun
  simp only [hsel, hname, htar, Option.isSome_none]
  exact runBatches_no_target _ _ _ _ hb _

/-- C2: for every attack name other than lbfgs, the first batch evaluation
references the locals `y` and `target`, which only the lbfgs branch assigns;
the very first batch therefore raises an unbound-local error, and the run
ends in its initial state: nothing processed, no adversarial sample saved. -/
theorem C2_nonlbfgs_unbound (s : String) (hs : s ∈ attackChoices)
    (hne : s ≠ "lbfgs") (out : String) (b : Nat) (e l : Int)
    (ds : List Sample) (hds : ds ≠ []) (evalF : Sample → EvalOut)
    (perm : List Sample → List Sample) (r : Fin 1000) :
    mainRun ⟨out, b, AttackVal.str s, e, l⟩ ds evalF perm r =
      (initState, some (RunError.unboundLocal "y")) := by
  simp only [attackChoices, List.mem_cons, List.not_mem_nil, or_false] at hs
  rcases hs with rfl | rfl | rfl | rfl | rfl | rfl | rfl | rfl
  · exact absurd rfl hne
  all_goals exact mainRun_unbound _ _ _ ds evalF perm r rfl rfl rfl hds

/-- Witness for C2: a concrete one-image fgsm run dies on its first batch. -/
theorem C2_nonlbfgs_unbound_witness :
    mainRun ⟨"out", 1, AttackVal.str "fgsm", 20, -1⟩ [sample1] evalConst id 0 =
      (initState, some (RunError.unboundLocal "y")) :=
  C2_nonlbfgs_unbound "fgsm" (by simp [attackChoices]) (by simp) "out" 1 20 (-1)
    [sample1] (by simp) evalConst id 0

/-- C8: the data loader is built with shuffle disabled, so the batch stream
is the dataset order chunked by batch size, the same whatever sampler
permutation the RNG would have produced; hence two runs with identical
inputs, identical configuration and a deterministic model-and-attack oracle
give identical outcomes — in particular identical adversarial arrays. -/
theorem C8_deterministic (args : Args) (ds : List Sample)
    (evalF : Sample → EvalOut) (perm1 perm2 : List Sample → List Sample)
    (r : Fin 1000) :
    dataLoaderBatches false perm1 ds args.batch_size = chunks args.batch_size ds ∧
    dataLoaderBatches false perm1 ds args.batch_size =
      dataLoaderBatches false perm2 ds args.batch_size ∧
    mainRun args ds evalF perm1 r = mainRun args ds evalF perm2 r ∧
    (mainRun args ds evalF perm1 r).1.saved = (mainRun args ds evalF perm2 r).1.saved :=
  ⟨rfl, rfl, rfl, rfl⟩

/-- Witness for C8: a reversing permutation and the identity give the same run. -/
theorem C8_deterministic_witness :
    mainRun argsFgsm [sample1] evalConst (fun ls => ls.reverse) 0 =
      mainRun argsFgsm [sample1] evalConst id 0 :=
  (C8_deterministic argsFgsm [sample1] evalConst (fun ls => ls.reverse) id 0).2.2.1

/-- C3: a sample counts as an attack success exactly when the argmax of its
original prediction differs from the argmax of its adversarial prediction
(the success mask keeps precisely those samples), and after each batch the
displayed running success rate equals the cumulative success count divided by
the cumulative count of samples seen. -/
theorem C3_success_rate (evalF : Sample → EvalOut) (o a : String)
    (batches : List (List Sample)) (st : LoopState)
    (h : runBatches evalF o a true batches initState = (st, none)) :
    (∀ batch, successResults evalF batch =
        batchResults evalF
          (batch.filter fun s => argmax (evalF s).z ≠ argmax (evalF s).adv_z)) ∧
    st.n_success = countSuccess evalF batches.flatten ∧
    st.n_processed = batches.flatten.length ∧
    st.rates = (List.range batches.length).map (prefixRate evalF batches) := by
  have h2 := runBatches_true evalF o a batches initState
  rw [h] at h2
  have hst : st = batches.foldl (stepOk evalF o a) initState :=
    congrArg Prod.fst h2
  subst hst
  refine ⟨successResults_spec evalF, ?_, ?_, ?_⟩
  · have hc := (foldl_counters evalF o a batches initState).1
    simpa [initState] using hc
  · have hc := (foldl_counters evalF o a batches initState).2
    simpa [initState] using hc
  · rw [foldl_rates evalF o a batches initState]
    show [] ++ _ = _
    rw [List.nil_append]
    refine congrArg (fun f => List.map f (List.range batches.length)) ?_
    funext k
    show (((initState.n_success + countSuccess evalF ((batches.take (k + 1)).flatten) : Nat)) : ℚ) /
        (((initState.n_processed + ((batches.take (k + 1)).flatten).length : Nat)) : ℚ) =
      prefixRate evalF batches k
    simp [initState, prefixRate]

/-- Witness for C3: one single-sample batch whose attack flips class 0 to
class 1 yields one success out of one processed and a displayed rate of 1. -/
theorem C3_success_rate_witness :
    st1.n_success = countSuccess evalConst [[sample1]].flatten ∧
    st1.n_processed = [[sample1]].flatten.length ∧
    st1.rates = (List.range [[sample1]].length).map (prefixRate evalConst [[sample1]]) :=
  (C3_success_rate evalConst "out" "fgsm_Linf_eps20" [[sample1]] st1 rfl).2

/-- C1 (spec intent vs. code): under fgsm with eps 20 and the default norm
order the code would name its outputs `{path}_fgsm_Linf_eps20_src{C}_dst{C'}
.npz` under out_folder with the single key `img` — but the run never gets
there: the concrete one-image fgsm run below aborts on its first batch with
the unbound-local error on `y` (`attack.py:115`), so no file is written. -/
theorem C1_fgsm_names_but_crashes :
    gradSuffix 20 (resolveOrd (-1)) = "_Linf_eps20" ∧
    fullAttackName (AttackVal.str "fgsm") (gradSuffix 20 (resolveOrd (-1))) =
      Except.ok "fgsm_Linf_eps20" ∧
    savePath "out" "fgsm_Linf_eps20" "img1.png" 281 285 =
      "out/img1.png_fgsm_Linf_eps20_src281_dst285.npz" ∧
    mainRun argsFgsm [sample1] evalConst id 0 =
      (initState, some (RunError.unboundLocal "y")) ∧
    (mainRun argsFgsm [sample1] evalConst id 0).1.saved = [] :=
  ⟨rfl, rfl, rfl, rfl, rfl⟩

end AttackPy
